import Mathlib

/-!
Shallow embedding of the work-lifecycle and payment-reconciliation core of the
US-MANAGEMENT repository.

Monetary amounts (JavaScript numbers holding currency values) are modelled as
rationals; dates (JavaScript `Date` values) are modelled as abstract `Nat`
timestamps, with the "now" of each request passed in explicitly.  The Prisma
stores (clients, works, payments, history rows) are modelled as lists inside a
`Db` record, and each API handler becomes a function from a `Db` and the
request parameters to the updated `Db` paired with a result value mirroring
the HTTP response branches of the handler.
-/

namespace USM

/-- WorkStatus as in types/index.ts: the three public status values. -/
inductive WorkStatus where
  | pending
  | completed
  | finalCompleted
deriving DecidableEq, Repr

/-- Embeds toPrismaStatus (src/utils/status.utils.ts lines 11-18): convert the
TypeScript status value to the database string format. -/
def toPrismaStatus : WorkStatus → String
  | .pending => "PENDING"
  | .completed => "COMPLETED"
  | .finalCompleted => "FINAL_COMPLETED"

/-- The own-keys view of fromPrismaStatus (src/utils/status.utils.ts lines
23-30): the three mapped keys decode to their status, every other string to
'pending'.  The runtime bracket lookup `mapping[status]` additionally reaches
the members every object literal inherits from Object.prototype (see
fromPrismaStatusRuntime below for the faithful decoder); the two views agree
on every comparison of the result against a proper status value, which is
all the handlers in this file do with it (the delete guard only asks whether
the decoded status is finalCompleted, and only the key "FINAL_COMPLETED"
decodes to it in either view). -/
def fromPrismaStatus (status : String) : WorkStatus :=
  if status = "PENDING" then .pending
  else if status = "COMPLETED" then .completed
  else if status = "FINAL_COMPLETED" then .finalCompleted
  else .pending

/-- The property names every plain object literal inherits from
Object.prototype, reachable through a bracket lookup such as
`mapping[status]`; all of them hold truthy values (functions, or
Object.prototype itself for the __proto__ accessor). -/
def objectPrototypeKeys : List String :=
  ["constructor", "hasOwnProperty", "isPrototypeOf", "propertyIsEnumerable",
   "toLocaleString", "toString", "valueOf", "__defineGetter__",
   "__defineSetter__", "__lookupGetter__", "__lookupSetter__", "__proto__"]

/-- What the JavaScript expression `mapping[status] || 'pending'` can
evaluate to: one of the three status strings (or the 'pending' fallback), or
a truthy value inherited from Object.prototype, which is not a status string
at all. -/
inductive JsStatusValue where
  | status (s : WorkStatus)
  | inheritedMember (name : String)
deriving DecidableEq, Repr

/-- Embeds fromPrismaStatus (src/utils/status.utils.ts lines 23-30) with the
runtime semantics of the bracket lookup: an own key of the mapping shadows
the prototype and decodes to its status; a member name inherited from
Object.prototype yields that inherited truthy value, so the `||` fallback
does not fire; only a string absent from the whole prototype chain gives
undefined and falls back to 'pending'. -/
def fromPrismaStatusRuntime (status : String) : JsStatusValue :=
  if status = "PENDING" then .status .pending
  else if status = "COMPLETED" then .status .completed
  else if status = "FINAL_COMPLETED" then .status .finalCompleted
  else if objectPrototypeKeys.contains status then .inheritedMember status
  else .status .pending

/-- Client row (prisma model Client, fields used by the core). -/
structure DbClient where
  id : String
  name : String
  pan : Option String
deriving DecidableEq

/-- Work row (prisma model Work, fields used by the core); `status` holds the
database-format string ("PENDING" / "COMPLETED" / "FINAL_COMPLETED"). -/
structure DbWork where
  id : String
  clientId : String
  purpose : String
  fees : ℚ
  completionDate : Option Nat
  status : String
  paymentReceived : Bool
deriving DecidableEq

/-- Payment row (prisma model Payment, fields used by the core). -/
structure DbPayment where
  workId : String
  amount : ℚ
  paymentDate : Nat
deriving DecidableEq

/-- One entry of a history snapshot's payment-details list
(history.service.ts PaymentDetail). -/
structure PaymentDetail where
  amount : ℚ
  paymentDate : Nat
deriving DecidableEq

/-- History row (prisma model History, fields used by the core).  The source
stores `paymentDetails` as a nullable JSON string encoding a list of
amount/date pairs; it is modelled as the decoded optional list. -/
structure DbHistory where
  clientName : String
  clientPan : Option String
  workPurpose : String
  fees : ℚ
  totalPaid : ℚ
  paymentDetails : Option (List PaymentDetail)
  completionDate : Nat
  paymentReceivedDate : Nat
  paymentReceived : Bool
  originalWorkId : Option String
  originalClientId : Option String
deriving DecidableEq

/-- The database state: the four Prisma stores the core reads and writes. -/
structure Db where
  clients : List DbClient
  works : List DbWork
  payments : List DbPayment
  histories : List DbHistory
deriving DecidableEq

/-- Embeds prisma.work.findUnique by id (WorkService.findById). -/
def Db.findWork (db : Db) (id : String) : Option DbWork :=
  db.works.find? (fun w => w.id = id)

/-- Embeds prisma.client.findUnique by id (ClientService.findById). -/
def Db.findClient (db : Db) (id : String) : Option DbClient :=
  db.clients.find? (fun c => c.id = id)

/-- Rows of the payment table belonging to one work (the `where: \x7b workId \x7d`
filter used by PaymentService). -/
def paymentsFor (db : Db) (workId : String) : List DbPayment :=
  db.payments.filter (fun p => p.workId = workId)

/-- Embeds PaymentService.findByWorkId (payment.service.ts lines 41-56):
payments of the work ordered by paymentDate descending. -/
def PaymentService.findByWorkId (db : Db) (workId : String) : List DbPayment :=
  (paymentsFor db workId).mergeSort (fun a b => b.paymentDate ≤ a.paymentDate)

/-- Embeds the reduce at payment.service.ts line 93:
`payments.reduce((sum, payment) => sum + payment.amount, 0)`. -/
def totalPaidCalc (payments : List DbPayment) : ℚ :=
  payments.foldl (fun s p => s + p.amount) 0

/-- PaymentSummary as in payment.service.ts lines 8-14. -/
structure PaymentSummary where
  workId : String
  totalFees : ℚ
  totalPaid : ℚ
  remainingAmount : ℚ
  payments : List DbPayment
deriving DecidableEq

/-- Embeds PaymentService.getPaymentSummary (payment.service.ts lines 75-103):
loads the work for its fees, lists the payments, and computes
`remainingAmount = Math.max(0, work.fees - totalPaid)` (line 94). -/
def PaymentService.getPaymentSummary (db : Db) (workId : String) :
    Option PaymentSummary :=
  match Db.findWork db workId with
  | none => none
  | some work =>
    let payments := PaymentService.findByWorkId db workId
    let totalPaid := totalPaidCalc payments
    some { workId := work.id
           totalFees := work.fees
           totalPaid := totalPaid
           remainingAmount := max 0 (work.fees - totalPaid)
           payments := payments }

/-- Result record of PaymentService.validatePaymentAmount; the source also
carries a human-readable message, which no caller branches on beyond
presence, so only its presence is modelled. -/
structure ValidationResult where
  valid : Bool
  remainingAmount : ℚ
  hasError : Bool
deriving DecidableEq

/-- Embeds PaymentService.validatePaymentAmount (payment.service.ts lines
108-139): work missing, non-positive amount, and amount exceeding the
remaining balance are invalid; otherwise valid. -/
def PaymentService.validatePaymentAmount (db : Db) (workId : String)
    (amount : ℚ) : ValidationResult :=
  match PaymentService.getPaymentSummary db workId with
  | none => { valid := false, remainingAmount := 0, hasError := true }
  | some summary =>
    if amount ≤ 0 then
      { valid := false, remainingAmount := summary.remainingAmount,
        hasError := true }
    else if summary.remainingAmount < amount then
      { valid := false, remainingAmount := summary.remainingAmount,
        hasError := true }
    else
      { valid := true, remainingAmount := summary.remainingAmount,
        hasError := false }

/-- CreatePaymentInput as in types (workId, amount, paymentDate). -/
structure CreatePaymentInput where
  workId : String
  amount : ℚ
  paymentDate : Nat
deriving DecidableEq

/-- Embeds PaymentService.create (payment.service.ts lines 20-36): inserts one
payment row; nothing else changes. -/
def PaymentService.create (db : Db) (input : CreatePaymentInput) :
    Db × DbPayment :=
  let payment : DbPayment :=
    { workId := input.workId, amount := input.amount,
      paymentDate := input.paymentDate }
  ({ db with payments := db.payments ++ [payment] }, payment)

/-- Response branches of the POST /api/payments/[workId] handler. -/
inductive PostPaymentResult where
  | invalidAmount
  | workNotFound
  | rejected (remainingAmount : ℚ) (totalFees : ℚ)
  | summaryMissing
  | calcError
  | created (payment : DbPayment) (summary : PaymentSummary)
      (canFinalize : Bool)
deriving DecidableEq

/-- Embeds the POST handler of src/pages/api/payments/[workId].ts (lines
73-284), from the point where the request body has been parsed into a work id
and a numeric amount: non-positive amounts are rejected (400), a missing work
is 404, `validatePaymentAmount` failure is a 400 carrying the computed
remaining amount and the work's fees (lines 168-189, covering both the
validation branch and the double-check branch), and otherwise the payment row
is inserted and the recomputed summary is returned with the `canFinalize`
flag (lines 191-231). -/
def postPayment (db : Db) (workId : String) (amount : ℚ) (now : Nat) :
    Db × PostPaymentResult :=
  if amount ≤ 0 then (db, .invalidAmount)
  else
    match Db.findWork db workId with
    | none => (db, .workNotFound)
    | some work =>
      let validation := PaymentService.validatePaymentAmount db workId amount
      if validation.valid = false then
        (db, .rejected validation.remainingAmount work.fees)
      else if validation.remainingAmount < amount then
        (db, .rejected validation.remainingAmount work.fees)
      else
        let result := PaymentService.create db
          { workId := workId, amount := amount, paymentDate := now }
        match PaymentService.getPaymentSummary result.1 workId with
        | none => (result.1, .summaryMissing)
        | some summary =>
          if summary.totalPaid < 0 ∨ summary.remainingAmount < 0 then
            (result.1, .calcError)
          else
            (result.1,
             .created result.2 summary (summary.remainingAmount = 0))

/-- A whole sequence of add-payment requests against one work, applied in
order (each request is an amount and its arrival time). -/
def runPayments (db : Db) (workId : String) (reqs : List (ℚ × Nat)) : Db :=
  reqs.foldl (fun d r => (postPayment d workId r.1 r.2).1) db

/-- UpdateWorkInput as assembled by the update-status handler: the optional
fields that WorkService.update copies into the prisma update. -/
structure UpdateWorkInput where
  purpose : Option String := none
  fees : Option ℚ := none
  completionDate : Option Nat := none
  status : Option String := none
  paymentReceived : Option Bool := none
deriving DecidableEq

/-- Embeds the status-normalisation branch of WorkService.update
(work.service.ts lines 98-103): a string that is none of the three TypeScript
values is passed through as already being in database format, otherwise it is
converted with toPrismaStatus. -/
def statusToDbFormat (s : String) : String :=
  if s = "pending" then toPrismaStatus .pending
  else if s = "completed" then toPrismaStatus .completed
  else if s = "finalCompleted" then toPrismaStatus .finalCompleted
  else s

/-- The row produced by the prisma update inside WorkService.update
(work.service.ts lines 93-109): each field present in the update data
replaces the stored one, the status being normalised to database format. -/
def updatedWork (w : DbWork) (data : UpdateWorkInput) : DbWork :=
  { w with
    purpose := data.purpose.getD w.purpose
    fees := data.fees.getD w.fees
    completionDate :=
      match data.completionDate with
      | some d => some d
      | none => w.completionDate
    status :=
      match data.status with
      | some s => statusToDbFormat s
      | none => w.status
    paymentReceived := data.paymentReceived.getD w.paymentReceived }

/-- Embeds WorkService.update (work.service.ts lines 92-111): prisma update of
the found work with exactly the provided fields.  Prisma throws when the row
is missing; that is modelled by returning `none` (every caller checks
existence first). -/
def WorkService.update (db : Db) (id : String) (data : UpdateWorkInput) :
    Db × Option DbWork :=
  match Db.findWork db id with
  | none => (db, none)
  | some w =>
    ({ db with
       works := db.works.map (fun x =>
         if x.id = id then updatedWork w data else x) },
     some (updatedWork w data))

/-- Modelled from the spec: the prisma schema file itself is not among the
sources, so the storage-level ON DELETE CASCADE from Work to Payment is taken
from the spec ("Deleting a work removes its PaymentEntries (cascade) but
never affects any HistorySnapshot").  The removal of the work row embeds
WorkService.delete (work.service.ts lines 120-125), whose own doc comment
states that history records are not affected. -/
def WorkService.delete (db : Db) (id : String) : Db :=
  { db with
    works := db.works.filter (fun w => ¬ w.id = id)
    payments := db.payments.filter (fun p => ¬ p.workId = id) }

/-- Number of history rows recorded for a work: the prisma.history.count of
HistoryService.existsForWork (history.service.ts lines 433-440). -/
def HistoryService.countForWork (db : Db) (workId : String) : Nat :=
  (db.histories.filter (fun h => h.originalWorkId = some workId)).length

/-- Embeds HistoryService.existsForWork (history.service.ts lines 433-440):
`count > 0`. -/
def HistoryService.existsForWork (db : Db) (workId : String) : Bool :=
  decide (0 < HistoryService.countForWork db workId)

/-- The one storage failure modelled for history insertion: the duplicate
rejection (either the application-level exists check or the P2002 unique
constraint on originalWorkId; both surface as the same "already exists"
error, history.service.ts lines 259 and 317). -/
inductive HistoryError where
  | duplicate (workId : String)
deriving DecidableEq

/-- CreateHistoryInput as in history.service.ts lines 231-242. -/
structure CreateHistoryInput where
  clientName : String
  clientPan : Option String
  workPurpose : String
  fees : ℚ
  totalPaid : ℚ
  paymentDetails : Option (List PaymentDetail) := none
  completionDate : Nat
  paymentReceivedDate : Nat
  originalWorkId : Option String := none
  originalClientId : Option String := none
deriving DecidableEq

/-- The duplicate guard at the top of HistoryService.create (history.service.ts
lines 256-261): only checked when an originalWorkId was supplied. -/
def HistoryService.duplicateCheck (db : Db) (data : CreateHistoryInput) : Bool :=
  match data.originalWorkId with
  | some wid => HistoryService.existsForWork db wid
  | none => false

/-- The history row HistoryService.create inserts (history.service.ts lines
264-286): payment details are stored only when the provided list is nonempty,
and paymentReceived is forced to true. -/
def HistoryService.storedRecord (data : CreateHistoryInput) : DbHistory :=
  { clientName := data.clientName
    clientPan := data.clientPan
    workPurpose := data.workPurpose
    fees := data.fees
    totalPaid := data.totalPaid
    paymentDetails :=
      match data.paymentDetails with
      | some l => if l.isEmpty then none else some l
      | none => none
    completionDate := data.completionDate
    paymentReceivedDate := data.paymentReceivedDate
    paymentReceived := true
    originalWorkId := data.originalWorkId
    originalClientId := data.originalClientId }

/-- Embeds HistoryService.create (history.service.ts lines 254-321): when an
originalWorkId is supplied and a history row for it already exists, the
function throws the "already exists" error and inserts nothing; otherwise it
inserts one history row. -/
def HistoryService.create (db : Db) (data : CreateHistoryInput) :
    Except HistoryError (Db × DbHistory) :=
  if HistoryService.duplicateCheck db data then
    .error (.duplicate (data.originalWorkId.getD ""))
  else
    .ok ({ db with
           histories := db.histories ++ [HistoryService.storedRecord data] },
         HistoryService.storedRecord data)

/-- Embeds WorkService.findByIdWithClient (work.service.ts lines 66-87): the
work together with its owning client row. -/
def WorkService.findByIdWithClient (db : Db) (id : String) :
    Option (DbWork × DbClient) :=
  match Db.findWork db id with
  | none => none
  | some w =>
    match Db.findClient db w.clientId with
    | none => none
    | some c => some (w, c)

/-- The amount/date pairs the handler copies out of the payment summary for
the snapshot (update-status.ts lines 153-158), empty when the summary is
missing. -/
def snapshotDetails (db : Db) (id : String) : List PaymentDetail :=
  match PaymentService.getPaymentSummary db id with
  | some s =>
    s.payments.map (fun p =>
      { amount := p.amount, paymentDate := p.paymentDate })
  | none => []

/-- The totalPaid put into the snapshot: the summary's totalPaid with the `||`
fallback to the work's fees (update-status.ts line 167). -/
def snapshotTotalPaid (db : Db) (id : String) (w2 : DbWork) : ℚ :=
  match PaymentService.getPaymentSummary db id with
  | some s => if s.totalPaid = 0 then w2.fees else s.totalPaid
  | none => w2.fees

/-- The CreateHistoryInput assembled by the handler (update-status.ts lines
162-173); an empty details list is passed as undefined (line 168). -/
def snapshotInput (db : Db) (id : String) (w2 : DbWork) (client : DbClient)
    (now : Nat) : CreateHistoryInput :=
  { clientName := client.name
    clientPan := client.pan
    workPurpose := w2.purpose
    fees := w2.fees
    totalPaid := snapshotTotalPaid db id w2
    paymentDetails :=
      if (snapshotDetails db id).isEmpty then none
      else some (snapshotDetails db id)
    completionDate := w2.completionDate.getD now
    paymentReceivedDate := now
    originalWorkId := some id
    originalClientId := some client.id }

/-- Embeds the history-snapshot block of the update-status handler
(src/pages/api/works/[id]/update-status.ts lines 139-186), the code
realisation of the spec's History Snapshot Writer: check existence, build the
snapshot input from the work, its client and the payment summary, call
HistoryService.create, and catch the "already exists" duplicate error (the
only storage failure modelled) so it never fails the status update. -/
def historySnapshotPhase (db : Db) (id : String) (now : Nat) : Db :=
  if HistoryService.existsForWork db id then db
  else
    match WorkService.findByIdWithClient db id with
    | none => db
    | some (w2, client) =>
      match HistoryService.create db (snapshotInput db id w2 client now) with
      | .ok (db2, _) => db2
      | .error _ => db

/-- Response branches of the PATCH /api/works/[id]/update-status handler. -/
inductive UpdateStatusResult where
  | invalidStatus
  | workNotFound
  | summaryMissing
  | paymentPending (remainingAmount : ℚ) (totalFees : ℚ) (totalPaid : ℚ)
  | updateFailed
  | ok (updatedWork : DbWork)
deriving DecidableEq

/-- Tail of the update-status handler (update-status.ts lines 131-188): put
the requested status into the update data, run WorkService.update, and when
the request was finalCompleted and the updated work has a completion date,
run the history-snapshot block on the updated state. -/
def finishUpdate (db : Db) (id : String) (status : String)
    (upd : UpdateWorkInput) (now : Nat) : Db × UpdateStatusResult :=
  let r := WorkService.update db id { upd with status := some status }
  match r.2 with
  | none => (db, .updateFailed)
  | some uw =>
    if status = "finalCompleted" ∧ uw.completionDate.isSome then
      (historySnapshotPhase r.1 id now, .ok uw)
    else (r.1, .ok uw)

/-- Embeds the PATCH handler of src/pages/api/works/[id]/update-status.ts
(lines 53-196), from the point where the caller is admin and the id is a
string: reject a body status outside the three known values (line 77), 404 a
missing work (lines 82-85), set completionDate when first marking completed
(lines 96-99); for a finalCompleted request recompute the payment summary and
reject with the remaining/fees/paid figures unless remainingAmount is exactly
0 (lines 103-123), setting completionDate if still unset (lines 126-128);
then write the status and conditionally record the history snapshot. -/
def updateStatusHandler (db : Db) (id : String) (status : String)
    (now : Nat) : Db × UpdateStatusResult :=
  if ¬ (status = "pending" ∨ status = "completed" ∨
        status = "finalCompleted") then
    (db, .invalidStatus)
  else
    match Db.findWork db id with
    | none => (db, .workNotFound)
    | some currentWork =>
      let upd0 : UpdateWorkInput :=
        if status = "completed" ∧ currentWork.completionDate = none then
          { completionDate := some now }
        else {}
      if status = "finalCompleted" then
        match PaymentService.getPaymentSummary db id with
        | none => (db, .summaryMissing)
        | some ps =>
          if ps.remainingAmount ≠ 0 then
            (db, .paymentPending ps.remainingAmount ps.totalFees ps.totalPaid)
          else
            let upd1 :=
              if currentWork.completionDate = none then
                { upd0 with completionDate := some now }
              else upd0
            finishUpdate db id status upd1 now
      else finishUpdate db id status upd0 now

/-- Response branches of the DELETE /api/works/[id] handler. -/
inductive DeleteWorkResult where
  | notFound
  | notDeletable
  | deleted
deriving DecidableEq

/-- Embeds the DELETE branch of src/pages/api/works/[id]/index.ts (lines
15-64): 404 when the work is missing, 403 unless the mapped status (mapWork
applies fromPrismaStatus) is finalCompleted, otherwise delete the work. -/
def deleteWorkHandler (db : Db) (id : String) : Db × DeleteWorkResult :=
  match Db.findWork db id with
  | none => (db, .notFound)
  | some w =>
    if fromPrismaStatus w.status ≠ .finalCompleted then (db, .notDeletable)
    else (WorkService.delete db id, .deleted)

/-- Modelled from the spec: the prisma schema file is not among the sources,
so the storage-level ON DELETE CASCADE chain Client → Work → Payment is taken
from the spec and the repository's own docs (PRODUCTION.md "Cascade Delete",
spec 4.5: deleting a client removes all of its works and, transitively, their
payments, regardless of status, and does not affect HistorySnapshots).  The
removal of the client row embeds ClientService.delete. -/
def ClientService.delete (db : Db) (id : String) : Db :=
  let ownedWorkIds := (db.works.filter (fun w => w.clientId = id)).map
    (fun w => w.id)
  { db with
    clients := db.clients.filter (fun c => ¬ c.id = id)
    works := db.works.filter (fun w => ¬ w.clientId = id)
    payments := db.payments.filter
      (fun p => ¬ ownedWorkIds.contains p.workId) }

/-- Response branches of the DELETE method of /api/clients/[id]. -/
inductive DeleteClientResult where
  | notFound
  | deleted
deriving DecidableEq

/-- Embeds the DELETE branch of src/pages/api/clients/[id].ts (lines
136-175): 404 when the client is missing, otherwise ClientService.delete;
the handler's comments state that history records are not touched. -/
def deleteClientHandler (db : Db) (id : String) : Db × DeleteClientResult :=
  match Db.findClient db id with
  | none => (db, .notFound)
  | some _ => (ClientService.delete db id, .deleted)

/-- Total recorded payment amount for one work, as a function of the raw
ledger (order-independent form of the reduce at payment.service.ts line 93). -/
def totalPaidOf (db : Db) (workId : String) : ℚ :=
  ((paymentsFor db workId).map (fun p => p.amount)).sum

/-- The amount/date view of the ledger of one work in the display order of
PaymentService.findByWorkId. -/
def ledgerDetails (db : Db) (workId : String) : List PaymentDetail :=
  (PaymentService.findByWorkId db workId).map (fun p =>
    { amount := p.amount, paymentDate := p.paymentDate })

/-- Validation phase of one in-flight POST /api/payments request: everything
the handler checks before the insert (amount positive, work present,
validatePaymentAmount), all reads against the database state at the time the
phase runs.  The source runs this phase and the insert as separate awaited
prisma calls with no surrounding transaction, so under concurrency another
request can run between the two phases. -/
def paymentValidationPhase (db : Db) (workId : String) (amount : ℚ) : Bool :=
  decide (0 < amount) && (Db.findWork db workId).isSome &&
    (PaymentService.validatePaymentAmount db workId amount).valid

/-- Insert phase of one in-flight POST /api/payments request: the
PaymentService.create call, applied to whatever the database state is when
this phase runs. -/
def paymentInsertPhase (db : Db) (workId : String) (amount : ℚ) (now : Nat) :
    Db :=
  (PaymentService.create db
    { workId := workId, amount := amount, paymentDate := now }).1

/-- Whether an update-status response is the 200 success branch. -/
def UpdateStatusResult.isOk : UpdateStatusResult → Bool
  | .ok _ => true
  | _ => false

/-- The updated work carried by a 200 update-status response. -/
def UpdateStatusResult.workOf : UpdateStatusResult → Option DbWork
  | .ok u => some u
  | _ => none

/-! Concrete databases used by the witnesses and counterexamples. -/

/-- Work used by the C6 witness: fees 500, one recorded payment of 300. -/
def exWork6 : DbWork :=
  { id := "w1", clientId := "c1", purpose := "gst filing", fees := 500,
    completionDate := none, status := "COMPLETED", paymentReceived := false }

/-- Database used by the C6 witness. -/
def exDb6 : Db :=
  { clients := [], works := [exWork6],
    payments := [DbPayment.mk "w1" 300 1], histories := [] }

/-- Summary computed by getPaymentSummary on the C6 witness database. -/
def exPs6 : PaymentSummary :=
  { workId := "w1", totalFees := 500, totalPaid := 300,
    remainingAmount := 200, payments := [DbPayment.mk "w1" 300 1] }

/-- Work used by the C4 witness: fees 500, status Completed. -/
def exWork4 : DbWork :=
  { id := "w4", clientId := "c1", purpose := "itr", fees := 500,
    completionDate := some 2, status := "COMPLETED", paymentReceived := false }

/-- Database used by the C4 witness: 300 of the 500 fees already paid. -/
def exDb4 : Db :=
  { clients := [], works := [exWork4],
    payments := [DbPayment.mk "w4" 300 1], histories := [] }

/-- Work used by the C7 witness: a Pending work. -/
def exWork7 : DbWork :=
  { id := "w7", clientId := "c1", purpose := "tds", fees := 100,
    completionDate := none, status := "PENDING", paymentReceived := false }

/-- Database used by the C7 witness. -/
def exDb7 : Db :=
  { clients := [], works := [exWork7], payments := [], histories := [] }

/-- Client, works, payments and a pre-existing snapshot for the C8 witness:
client c8 owns w81 (FinalCompleted, with payments and a snapshot) and w82
(Pending); client c9 owns w9. -/
def exClient8 : DbClient := { id := "c8", name := "A", pan := some "P1" }

def exSnap8 : DbHistory :=
  { clientName := "A", clientPan := some "P1", workPurpose := "gst",
    fees := 100, totalPaid := 100,
    paymentDetails := some [PaymentDetail.mk 100 3], completionDate := 4,
    paymentReceivedDate := 5, paymentReceived := true,
    originalWorkId := some "w81", originalClientId := some "c8" }

def exDb8 : Db :=
  { clients := [exClient8, { id := "c9", name := "B", pan := none }]
    works :=
      [{ id := "w81", clientId := "c8", purpose := "gst", fees := 100,
         completionDate := some 4, status := "FINAL_COMPLETED",
         paymentReceived := true },
       { id := "w82", clientId := "c8", purpose := "itr", fees := 50,
         completionDate := none, status := "PENDING",
         paymentReceived := false },
       { id := "w9", clientId := "c9", purpose := "tds", fees := 70,
         completionDate := none, status := "PENDING",
         paymentReceived := false }]
    payments := [DbPayment.mk "w81" 100 3, DbPayment.mk "w9" 10 6]
    histories := [exSnap8] }

/-- Work used by the C5 witness: fully paid, Completed. -/
def exWork5 : DbWork :=
  { id := "w5", clientId := "c5", purpose := "itr", fees := 100,
    completionDate := some 2, status := "COMPLETED",
    paymentReceived := false }

/-- The pre-existing snapshot for the C5 witness work. -/
def exSnap5 : DbHistory :=
  { clientName := "A", clientPan := none, workPurpose := "itr", fees := 100,
    totalPaid := 100, paymentDetails := some [PaymentDetail.mk 100 1],
    completionDate := 2, paymentReceivedDate := 3, paymentReceived := true,
    originalWorkId := some "w5", originalClientId := some "c5" }

/-- Database used by the C5 witness. -/
def exDb5 : Db :=
  { clients := [{ id := "c5", name := "A", pan := none }],
    works := [exWork5], payments := [DbPayment.mk "w5" 100 1],
    histories := [exSnap5] }

/-- A create input naming the already-snapshotted work. -/
def exInput5 : CreateHistoryInput :=
  { clientName := "A", clientPan := none, workPurpose := "itr", fees := 100,
    totalPaid := 100, completionDate := 2, paymentReceivedDate := 9,
    originalWorkId := some "w5", originalClientId := some "c5" }

/-- Work used by the C1 witness: fees 1000, Completed, no completion date. -/
def exWork1 : DbWork :=
  { id := "w1", clientId := "c1", purpose := "audit", fees := 1000,
    completionDate := none, status := "COMPLETED",
    paymentReceived := false }

/-- Client owning the C1 witness work. -/
def exClient1 : DbClient := { id := "c1", name := "N", pan := some "P9" }

/-- Database used by the C1 witness: payments 400 and 600 fully cover the
fees of 1000, and no snapshot exists yet. -/
def exDb1 : Db :=
  { clients := [exClient1], works := [exWork1],
    payments := [DbPayment.mk "w1" 400 1, DbPayment.mk "w1" 600 2],
    histories := [] }

/-- Work used by the C2 counterexample: a Completed work. -/
def exWorkC2 : DbWork :=
  { id := "w1", clientId := "c1", purpose := "gst", fees := 100,
    completionDate := some 3, status := "COMPLETED",
    paymentReceived := false }

/-- Database used by the C2 counterexample. -/
def exDbC2 : Db :=
  { clients := [], works := [exWorkC2], payments := [], histories := [] }

/-- The row after the backward move: only the status string changed. -/
def exWorkC2After : DbWork :=
  { id := "w1", clientId := "c1", purpose := "gst", fees := 100,
    completionDate := some 3, status := "PENDING",
    paymentReceived := false }

/-- Work used by the C3 witness: fees 500, empty ledger. -/
def exWork3 : DbWork :=
  { id := "w3", clientId := "c1", purpose := "roc", fees := 500,
    completionDate := none, status := "COMPLETED", paymentReceived := false }

/-- Database used by the C3 witness. -/
def exDb3 : Db :=
  { clients := [], works := [exWork3], payments := [], histories := [] }

/-- Work and database for the C9 race schedule: fees 500, empty ledger. -/
def raceWork : DbWork :=
  { id := "w1", clientId := "c1", purpose := "audit", fees := 500,
    completionDate := some 1, status := "COMPLETED",
    paymentReceived := false }

def raceDb : Db :=
  { clients := [], works := [raceWork], payments := [], histories := [] }

/-! Helper lemmas about the embedded operations. -/

theorem foldl_amount_eq_sum (l : List DbPayment) :
    l.foldl (fun s p => s + p.amount) 0 = (l.map (fun p => p.amount)).sum := by
  rw [List.sum_eq_foldl, List.foldl_map]

theorem totalPaidCalc_findByWorkId (db : Db) (wid : String) :
    totalPaidCalc (PaymentService.findByWorkId db wid) = totalPaidOf db wid := by
  unfold totalPaidCalc PaymentService.findByWorkId totalPaidOf
  rw [foldl_amount_eq_sum]
  exact ((List.mergeSort_perm (paymentsFor db wid)
    (fun a b => b.paymentDate ≤ a.paymentDate)).map (fun p => p.amount)).sum_eq

theorem getPaymentSummary_eq (db : Db) (wid : String) (w : DbWork)
    (hfind : Db.findWork db wid = some w) :
    PaymentService.getPaymentSummary db wid = some
      { workId := w.id
        totalFees := w.fees
        totalPaid := totalPaidOf db wid
        remainingAmount := max 0 (w.fees - totalPaidOf db wid)
        payments := PaymentService.findByWorkId db wid } := by
  simp [PaymentService.getPaymentSummary, hfind, totalPaidCalc_findByWorkId]

theorem findWork_id (db : Db) (id : String) (w : DbWork)
    (hfind : Db.findWork db id = some w) : w.id = id := by
  have h := List.find?_some hfind
  simpa using h

theorem find_update {l : List DbWork} {id : String} {w u : DbWork}
    (h : l.find? (fun x => x.id = id) = some w) (hu : u.id = id) :
    (l.map (fun x => if x.id = id then u else x)).find?
      (fun x => x.id = id) = some u := by
  induction l with
  | nil => simp [List.find?] at h
  | cons a t ih =>
    by_cases ha : a.id = id
    · simp [ha, hu, List.find?_cons]
    · rw [List.find?_cons_of_neg _ (by simpa using ha)] at h
      rw [List.map_cons, if_neg ha,
        List.find?_cons_of_neg _ (by simpa using ha)]
      exact ih h

theorem findWork_update (db : Db) (id : String) (w u : DbWork)
    (hfind : Db.findWork db id = some w) (hu : u.id = id) :
    Db.findWork
      { db with works := db.works.map (fun x => if x.id = id then u else x) }
      id = some u := by
  unfold Db.findWork at hfind ⊢
  exact find_update hfind hu

theorem existsForWork_congr (db db2 : Db) (id : String)
    (h : db2.histories = db.histories) :
    HistoryService.existsForWork db2 id = HistoryService.existsForWork db id := by
  simp [HistoryService.existsForWork, HistoryService.countForWork, h]

theorem totalPaidOf_congr (db db2 : Db) (wid : String)
    (h : db2.payments = db.payments) :
    totalPaidOf db2 wid = totalPaidOf db wid := by
  simp [totalPaidOf, paymentsFor, h]

theorem findByWorkId_congr (db db2 : Db) (wid : String)
    (h : db2.payments = db.payments) :
    PaymentService.findByWorkId db2 wid = PaymentService.findByWorkId db wid := by
  simp [PaymentService.findByWorkId, paymentsFor, h]

theorem totalPaidOf_insert (db : Db) (wid : String) (a : ℚ) (t : Nat) :
    totalPaidOf
      { db with payments := db.payments ++ [DbPayment.mk wid a t] } wid
      = totalPaidOf db wid + a := by
  simp [totalPaidOf, paymentsFor, List.filter_append]

theorem HistoryService.create_ok (db : Db) (data : CreateHistoryInput)
    (db2 : Db) (h : DbHistory)
    (heq : HistoryService.create db data = .ok (db2, h)) :
    db2 = { db with histories := db.histories ++ [h] } ∧
    h = HistoryService.storedRecord data := by
  unfold HistoryService.create at heq
  split at heq
  · exact absurd heq (by simp)
  · simp only [Except.ok.injEq, Prod.mk.injEq] at heq
    obtain ⟨h1, h2⟩ := heq
    subst h2
    exact ⟨h1.symm, rfl⟩

theorem HistoryService.create_fresh (db : Db) (data : CreateHistoryInput)
    (wid : String) (hw : data.originalWorkId = some wid)
    (hfresh : HistoryService.existsForWork db wid = false) :
    HistoryService.create db data =
      .ok ({ db with
             histories := db.histories ++ [HistoryService.storedRecord data] },
           HistoryService.storedRecord data) := by
  unfold HistoryService.create
  rw [if_neg]
  simp [HistoryService.duplicateCheck, hw, hfresh]

theorem HistoryService.create_duplicate (db : Db) (data : CreateHistoryInput)
    (wid : String) (hw : data.originalWorkId = some wid)
    (hdup : HistoryService.existsForWork db wid = true) :
    HistoryService.create db data = .error (.duplicate wid) := by
  unfold HistoryService.create
  rw [if_pos]
  · simp [hw]
  · simp [HistoryService.duplicateCheck, hw, hdup]

theorem historySnapshotPhase_frame (db : Db) (id : String) (now : Nat) :
    (historySnapshotPhase db id now).clients = db.clients ∧
    (historySnapshotPhase db id now).works = db.works ∧
    (historySnapshotPhase db id now).payments = db.payments := by
  unfold historySnapshotPhase
  split
  · exact ⟨rfl, rfl, rfl⟩
  · split
    · exact ⟨rfl, rfl, rfl⟩
    · split
      · next db2 _ heq =>
        obtain ⟨hdb2, _⟩ := HistoryService.create_ok _ _ _ _ heq
        subst hdb2
        exact ⟨rfl, rfl, rfl⟩
      · exact ⟨rfl, rfl, rfl⟩

theorem findWork_works_congr (db db2 : Db) (id : String)
    (h : db2.works = db.works) : Db.findWork db2 id = Db.findWork db id := by
  simp [Db.findWork, h]

theorem postPayment_cases (db : Db) (wid : String) (a : ℚ) (now : Nat) :
    (postPayment db wid a now).1 = db ∨
    ∃ w, Db.findWork db wid = some w ∧ 0 < a ∧
      a ≤ max 0 (w.fees - totalPaidOf db wid) ∧
      (postPayment db wid a now).1 =
        { db with payments := db.payments ++ [DbPayment.mk wid a now] } := by
  unfold postPayment
  by_cases h1 : a ≤ 0
  · left
    simp [h1]
  · rw [if_neg h1]
    cases hfind : Db.findWork db wid with
    | none => left; rfl
    | some w =>
      have hps := getPaymentSummary_eq db wid w hfind
      have hval : PaymentService.validatePaymentAmount db wid a =
          if max 0 (w.fees - totalPaidOf db wid) < a then
            { valid := false,
              remainingAmount := max 0 (w.fees - totalPaidOf db wid),
              hasError := true }
          else
            { valid := true,
              remainingAmount := max 0 (w.fees - totalPaidOf db wid),
              hasError := false } := by
        simp [PaymentService.validatePaymentAmount, hps, h1]
      by_cases h2 : max 0 (w.fees - totalPaidOf db wid) < a
      · left
        simp [hval, h2]
      · right
        refine ⟨w, rfl, lt_of_not_le h1, le_of_not_lt h2, ?_⟩
        have hW2 : Db.findWork
            { db with payments := db.payments ++ [DbPayment.mk wid a now] }
            wid = some w := hfind
        have hps2 := getPaymentSummary_eq _ wid w hW2
        rw [hval]
        simp only [Bool.true_eq_false, if_false, if_neg h2,
          PaymentService.create, hps2]
        split <;> rfl

theorem postPayment_works_eq (db : Db) (wid : String) (a : ℚ) (now : Nat) :
    ((postPayment db wid a now).1).works = db.works := by
  rcases postPayment_cases db wid a now with h | ⟨w, _, _, _, h⟩ <;> rw [h]

theorem findClient_congr (db db2 : Db) (id : String)
    (h : db2.clients = db.clients) :
    Db.findClient db2 id = Db.findClient db id := by
  simp [Db.findClient, h]

theorem WorkService.update_found (db : Db) (id : String)
    (data : UpdateWorkInput) (w : DbWork)
    (hfind : Db.findWork db id = some w) :
    WorkService.update db id data =
      ({ db with works := db.works.map (fun x =>
           if x.id = id then updatedWork w data else x) },
       some (updatedWork w data)) := by
  simp [WorkService.update, hfind]

theorem finishUpdate_ok (db : Db) (id s : String) (upd : UpdateWorkInput)
    (now : Nat) (w : DbWork) (hfind : Db.findWork db id = some w) :
    ((finishUpdate db id s upd now).2).isOk = true ∧
    ((finishUpdate db id s upd now).2).workOf =
      some (updatedWork w { upd with status := some s }) ∧
    Db.findWork (finishUpdate db id s upd now).1 id =
      some (updatedWork w { upd with status := some s }) ∧
    (updatedWork w { upd with status := some s }).status =
      statusToDbFormat s := by
  have hid : w.id = id := findWork_id db id w hfind
  have hupd := WorkService.update_found db id { upd with status := some s } w
    hfind
  have huid : (updatedWork w { upd with status := some s }).id = id := by
    simpa [updatedWork] using hid
  have hfind1 : Db.findWork
      { db with works := db.works.map (fun x =>
          if x.id = id then updatedWork w { upd with status := some s }
          else x) } id
      = some (updatedWork w { upd with status := some s }) :=
    findWork_update db id w _ hfind huid
  unfold finishUpdate
  rw [hupd]
  dsimp only
  split_ifs with hc
  · have hfr := historySnapshotPhase_frame
      { db with works := db.works.map (fun x =>
          if x.id = id then updatedWork w { upd with status := some s }
          else x) } id now
    refine ⟨rfl, rfl, ?_, by simp [updatedWork]⟩
    rw [findWork_works_congr _ _ id hfr.2.1]
    exact hfind1
  · exact ⟨rfl, rfl, hfind1, by simp [updatedWork]⟩

theorem updateStatusHandler_nonfinal (db : Db) (id : String) (s : String)
    (now : Nat) (w : DbWork) (hfind : Db.findWork db id = some w)
    (hvalid : s = "pending" ∨ s = "completed" ∨ s = "finalCompleted")
    (hnf : s ≠ "finalCompleted") :
    updateStatusHandler db id s now =
      finishUpdate db id s
        (if s = "completed" ∧ w.completionDate = none then
          { completionDate := some now }
         else {}) now := by
  unfold updateStatusHandler
  rw [if_neg (not_not_intro hvalid)]
  simp only [hfind]
  rw [if_neg hnf]

theorem updateStatusHandler_final_paid (db : Db) (id : String) (now : Nat)
    (w : DbWork) (hfind : Db.findWork db id = some w)
    (hrem : max 0 (w.fees - totalPaidOf db id) = 0) :
    updateStatusHandler db id "finalCompleted" now =
      finishUpdate db id "finalCompleted"
        (if w.completionDate = none then { completionDate := some now }
         else {}) now := by
  have hps := getPaymentSummary_eq db id w hfind
  unfold updateStatusHandler
  rw [if_neg (not_not_intro (by simp))]
  simp only [hfind, hps]
  simp [hrem]

theorem finishUpdate_final_eq (db : Db) (id : String) (upd : UpdateWorkInput)
    (now : Nat) (w : DbWork) (hfind : Db.findWork db id = some w)
    (hsome : (updatedWork w
      { upd with status := some "finalCompleted" }).completionDate.isSome
        = true) :
    finishUpdate db id "finalCompleted" upd now =
      (historySnapshotPhase
        { db with works := db.works.map (fun x =>
            if x.id = id then
              updatedWork w { upd with status := some "finalCompleted" }
            else x) }
        id now,
       .ok (updatedWork w { upd with status := some "finalCompleted" })) := by
  unfold finishUpdate
  rw [WorkService.update_found db id _ w hfind]
  dsimp only
  rw [if_pos ⟨rfl, hsome⟩]

theorem finalize_success_shape (db : Db) (id : String) (w : DbWork)
    (now : Nat) (hfind : Db.findWork db id = some w)
    (hrem : max 0 (w.fees - totalPaidOf db id) = 0) :
    ∃ db1 u,
      updateStatusHandler db id "finalCompleted" now =
        (historySnapshotPhase db1 id now, .ok u) ∧
      db1 = { db with works := db.works.map (fun x =>
        if x.id = id then u else x) } ∧
      Db.findWork db1 id = some u ∧
      u.id = w.id ∧ u.clientId = w.clientId ∧ u.purpose = w.purpose ∧
      u.fees = w.fees ∧ u.status = "FINAL_COMPLETED" ∧
      u.completionDate = some (w.completionDate.getD now) := by
  have hid : w.id = id := findWork_id db id w hfind
  rw [updateStatusHandler_final_paid db id now w hfind hrem]
  set data : UpdateWorkInput :=
    if w.completionDate = none then { completionDate := some now } else {}
    with hdata
  have hdpu : data.purpose = none := by
    rw [hdata]
    split <;> rfl
  have hdfe : data.fees = none := by
    rw [hdata]
    split <;> rfl
  set u : DbWork := updatedWork w { data with status := some "finalCompleted" }
    with hudef
  have hcd : u.completionDate = some (w.completionDate.getD now) := by
    rw [hudef, hdata]
    cases hc : w.completionDate with
    | none => simp [updatedWork, hc]
    | some d => simp [updatedWork, hc]
  have huid : u.id = id := by
    rw [hudef]
    simpa [updatedWork] using hid
  refine ⟨{ db with works := db.works.map (fun x =>
      if x.id = id then u else x) }, u,
    finishUpdate_final_eq db id data now w hfind (by rw [hcd]; rfl),
    rfl, findWork_update db id w u hfind huid, huid.trans hid.symm,
    ?_, ?_, ?_, ?_, hcd⟩
  · rw [hudef]
    simp [updatedWork]
  · rw [hudef]
    simp [updatedWork, hdpu]
  · rw [hudef]
    simp [updatedWork, hdfe]
  · rw [hudef]
    simp [updatedWork, statusToDbFormat, toPrismaStatus]

/-! Claim theorems. -/

/-- Claim C6: for every non-negative fees and every totalPaid reachable in a
payment summary, the balance calculation of PaymentService.getPaymentSummary
returns max(0, fees − totalPaid); the remaining amount is never negative and
is 0 exactly when totalPaid ≥ fees. -/
theorem remaining_is_clamped_difference (db : Db) (wid : String) (w : DbWork)
    (ps : PaymentSummary) (hfind : Db.findWork db wid = some w)
    (_hfees : 0 ≤ w.fees)
    (hps : PaymentService.getPaymentSummary db wid = some ps) :
    ps.remainingAmount = max 0 (ps.totalFees - ps.totalPaid) ∧
    0 ≤ ps.remainingAmount ∧
    (ps.remainingAmount = 0 ↔ ps.totalFees ≤ ps.totalPaid) := by
  rw [getPaymentSummary_eq db wid w hfind, Option.some_inj] at hps
  subst hps
  refine ⟨rfl, le_max_left 0 _, ?_⟩
  rw [max_eq_left_iff, sub_nonpos]

theorem remaining_is_clamped_difference_witness :
    PaymentService.getPaymentSummary exDb6 "w1" = some exPs6 ∧
    exPs6.remainingAmount = max 0 (exPs6.totalFees - exPs6.totalPaid) ∧
    0 ≤ exPs6.remainingAmount ∧
    (exPs6.remainingAmount = 0 ↔ exPs6.totalFees ≤ exPs6.totalPaid) := by
  have hps : PaymentService.getPaymentSummary exDb6 "w1" = some exPs6 := by
    rw [getPaymentSummary_eq exDb6 "w1" exWork6 (by simp [Db.findWork, exDb6, exWork6])]
    norm_num [exWork6, exPs6, totalPaidOf, paymentsFor, exDb6,
      PaymentService.findByWorkId]
  refine ⟨hps, ?_⟩
  exact remaining_is_clamped_difference exDb6 "w1" exWork6 exPs6
    (by simp [Db.findWork, exDb6, exWork6]) (by norm_num [exWork6]) hps

/-- Claim C10 counterexample: "toString" is none of the three known database
values, yet the runtime decoding does not return 'pending' for it — the
bracket lookup finds the member inherited from Object.prototype, a truthy
value, so the fallback never fires and the function returns that inherited
value instead of a status. -/
theorem proto_key_decodes_to_inherited :
    "toString" ≠ "PENDING" ∧ "toString" ≠ "COMPLETED" ∧
    "toString" ≠ "FINAL_COMPLETED" ∧
    fromPrismaStatusRuntime "toString" ≠
      JsStatusValue.status WorkStatus.pending ∧
    fromPrismaStatusRuntime "toString" =
      JsStatusValue.inheritedMember "toString" := by
  refine ⟨by decide, by decide, by decide, by decide, by decide⟩

/-- Claim C10 (amended): every stored status string that is neither one of
the three known database values nor one of the property names inherited from
Object.prototype decodes to the pending status; on an inherited property
name the lookup instead yields the inherited truthy value (see the
counterexample), so only strings absent from the whole prototype chain are
presented as Pending works. -/
theorem unknown_status_decodes_to_pending_amended (s : String)
    (h1 : s ≠ "PENDING") (h2 : s ≠ "COMPLETED")
    (h3 : s ≠ "FINAL_COMPLETED")
    (h4 : s ∉ objectPrototypeKeys) :
    fromPrismaStatusRuntime s = JsStatusValue.status WorkStatus.pending := by
  unfold fromPrismaStatusRuntime
  rw [if_neg h1, if_neg h2, if_neg h3, if_neg (by simp [h4])]

theorem unknown_status_decodes_to_pending_amended_witness :
    "CORRUPTED" ≠ "PENDING" ∧
    fromPrismaStatusRuntime "CORRUPTED" =
      JsStatusValue.status WorkStatus.pending :=
  ⟨by decide,
   unknown_status_decodes_to_pending_amended "CORRUPTED" (by decide)
     (by decide) (by decide) (by decide)⟩

/-- Claim C4: a finalize request (status finalCompleted) on a Completed work
whose remaining amount is not 0 fails with the payment-pending error carrying
the computed remaining amount, the total fees and the total paid, and leaves
the database (status and history rows included) exactly as it was. -/
theorem finalize_rejected_while_payment_pending (db : Db) (id : String)
    (w : DbWork) (now : Nat) (hfind : Db.findWork db id = some w)
    (_hstatus : fromPrismaStatus w.status = WorkStatus.completed)
    (hrem : max 0 (w.fees - totalPaidOf db id) ≠ 0) :
    updateStatusHandler db id "finalCompleted" now =
      (db, .paymentPending (max 0 (w.fees - totalPaidOf db id)) w.fees
        (totalPaidOf db id)) := by
  have hps := getPaymentSummary_eq db id w hfind
  simp [updateStatusHandler, hfind, hps, hrem]

theorem finalize_rejected_while_payment_pending_witness :
    updateStatusHandler exDb4 "w4" "finalCompleted" 9 =
      (exDb4, .paymentPending 200 500 300) := by
  have h := finalize_rejected_while_payment_pending exDb4 "w4" exWork4 9
    (by simp [Db.findWork, exDb4, exWork4])
    (by simp [exWork4, fromPrismaStatus])
    (by norm_num [exWork4, totalPaidOf, paymentsFor, exDb4])
  rw [h]
  norm_num [exWork4, totalPaidOf, paymentsFor, exDb4]

/-- Claim C7: a delete-work request on a work whose decoded status is not
FinalCompleted fails as not-deletable and changes nothing; on a FinalCompleted
work it removes the work row and (by cascade) its payment rows; in both cases
the history rows are untouched. -/
theorem delete_work_only_when_final (db : Db) (id : String) (w : DbWork)
    (hfind : Db.findWork db id = some w) :
    (fromPrismaStatus w.status ≠ WorkStatus.finalCompleted →
      deleteWorkHandler db id = (db, DeleteWorkResult.notDeletable)) ∧
    (fromPrismaStatus w.status = WorkStatus.finalCompleted →
      deleteWorkHandler db id =
        ({ db with
           works := db.works.filter (fun x => ¬ x.id = id)
           payments := db.payments.filter (fun p => ¬ p.workId = id) },
         DeleteWorkResult.deleted)) ∧
    ((deleteWorkHandler db id).1).histories = db.histories := by
  refine ⟨?_, ?_, ?_⟩
  · intro h
    simp [deleteWorkHandler, hfind, h]
  · intro h
    simp [deleteWorkHandler, hfind, h, WorkService.delete]
  · by_cases h : fromPrismaStatus w.status = WorkStatus.finalCompleted
    · simp [deleteWorkHandler, hfind, h, WorkService.delete]
    · simp [deleteWorkHandler, hfind, h]

theorem delete_work_only_when_final_witness :
    deleteWorkHandler exDb7 "w7" = (exDb7, DeleteWorkResult.notDeletable) :=
  (delete_work_only_when_final exDb7 "w7" exWork7
      (by simp [Db.findWork, exDb7, exWork7])).1 (by decide)

/-- Claim C8: deleting an existing client removes exactly that client's works
(whatever their status) and, by cascade, the payments of those works, while
the history rows are left completely unchanged. -/
theorem delete_client_cascades_sparing_history (db : Db) (id : String)
    (c : DbClient) (hfind : Db.findClient db id = some c) :
    deleteClientHandler db id =
      ({ db with
         clients := db.clients.filter (fun x => ¬ x.id = id)
         works := db.works.filter (fun w => ¬ w.clientId = id)
         payments := db.payments.filter (fun p =>
           ¬ ((db.works.filter (fun w => w.clientId = id)).map
               (fun w => w.id)).contains p.workId) },
       DeleteClientResult.deleted) ∧
    ((deleteClientHandler db id).1).histories = db.histories := by
  constructor
  · simp [deleteClientHandler, hfind, ClientService.delete]
  · simp [deleteClientHandler, hfind, ClientService.delete]

theorem delete_client_cascades_sparing_history_witness :
    deleteClientHandler exDb8 "c8" =
      ({ clients := [{ id := "c9", name := "B", pan := none }]
         works :=
           [{ id := "w9", clientId := "c9", purpose := "tds", fees := 70,
              completionDate := none, status := "PENDING",
              paymentReceived := false }]
         payments := [DbPayment.mk "w9" 10 6]
         histories := [exSnap8] },
       DeleteClientResult.deleted) := by
  have h := (delete_client_cascades_sparing_history exDb8 "c8" exClient8
    (by simp [Db.findClient, exDb8, exClient8])).1
  rw [h]
  simp [exDb8, exClient8, exSnap8]

theorem runPayments_le (wid : String) (w : DbWork) (reqs : List (ℚ × Nat)) :
    ∀ db : Db, Db.findWork db wid = some w → totalPaidOf db wid ≤ w.fees →
      totalPaidOf (runPayments db wid reqs) wid ≤ w.fees := by
  induction reqs with
  | nil =>
    intro db _ hinv
    simpa [runPayments] using hinv
  | cons r rs ih =>
    intro db hfind hinv
    have hstep : totalPaidOf (postPayment db wid r.1 r.2).1 wid ≤ w.fees := by
      rcases postPayment_cases db wid r.1 r.2 with h | ⟨w2, hf2, _, hle, h⟩
      · rw [h]
        exact hinv
      · have hw2 : w2 = w := by
          rw [hfind] at hf2
          exact (Option.some.inj hf2).symm
        subst hw2
        rw [h, totalPaidOf_insert]
        rw [max_eq_right (sub_nonneg.2 hinv)] at hle
        linarith
    have hfind2 : Db.findWork (postPayment db wid r.1 r.2).1 wid = some w :=
      (findWork_works_congr db (postPayment db wid r.1 r.2).1 wid
        (postPayment_works_eq db wid r.1 r.2)).trans hfind
    have hrun : runPayments db wid (r :: rs) =
        runPayments (postPayment db wid r.1 r.2).1 wid rs := by
      simp [runPayments]
    rw [hrun]
    exact ih (postPayment db wid r.1 r.2).1 hfind2 hstep

/-- Claim C3: starting from any ledger state satisfying the invariant, the
total recorded for a work never exceeds its fees under any sequence of
add-payment requests; moreover a single add-payment whose amount would push
the total over the fees is answered with the rejection branch carrying the
currently computed remaining amount, and it leaves the database (the ledger
included) exactly as it was. -/
theorem payments_never_exceed_fees (db : Db) (wid : String) (w : DbWork)
    (reqs : List (ℚ × Nat)) (hfind : Db.findWork db wid = some w)
    (hinv : totalPaidOf db wid ≤ w.fees) :
    totalPaidOf (runPayments db wid reqs) wid ≤ w.fees ∧
    (∀ a now, w.fees < totalPaidOf db wid + a →
      postPayment db wid a now =
        (db, .rejected (max 0 (w.fees - totalPaidOf db wid)) w.fees)) := by
  constructor
  · exact runPayments_le wid w reqs db hfind hinv
  · intro a now hover
    have ha : ¬ a ≤ 0 := not_le.mpr (by linarith)
    have hps := getPaymentSummary_eq db wid w hfind
    have hlt : max 0 (w.fees - totalPaidOf db wid) < a := by
      rw [max_eq_right (sub_nonneg.2 hinv)]
      linarith
    simp [postPayment, ha, hfind, PaymentService.validatePaymentAmount, hps,
      hlt]

/-- Claim C5: when a history row already exists for a work, the History
Snapshot Writer of the finalize path is a no-op returning success: the
service-level create call rejects the duplicate with the internal "already
exists" error and inserts nothing, the handler's snapshot block leaves the
state unchanged without reporting anything, and a finalize request on such a
work (work present, fully paid) still answers with the success branch and
leaves the history store untouched — the duplicate condition is never
surfaced to the caller. -/
theorem duplicate_snapshot_is_silent_success (db : Db) (id : String)
    (w : DbWork) (now : Nat)
    (hfind : Db.findWork db id = some w)
    (hdup : HistoryService.existsForWork db id = true)
    (hrem : max 0 (w.fees - totalPaidOf db id) = 0) :
    (∀ data : CreateHistoryInput, data.originalWorkId = some id →
      HistoryService.create db data =
        Except.error (HistoryError.duplicate id)) ∧
    historySnapshotPhase db id now = db ∧
    ((updateStatusHandler db id "finalCompleted" now).2).isOk = true ∧
    ((updateStatusHandler db id "finalCompleted" now).1).histories
      = db.histories := by
  obtain ⟨db1, u, hR, hdb1, hfindu, _, _, _, _, _, _⟩ :=
    finalize_success_shape db id w now hfind hrem
  have hh1 : db1.histories = db.histories := by rw [hdb1]
  have hex1 : HistoryService.existsForWork db1 id = true :=
    (existsForWork_congr db db1 id hh1).trans hdup
  have hphase : historySnapshotPhase db1 id now = db1 := by
    unfold historySnapshotPhase
    rw [if_pos hex1]
  refine ⟨fun data hdata =>
    HistoryService.create_duplicate db data id hdata hdup, ?_, ?_, ?_⟩
  · unfold historySnapshotPhase
    rw [if_pos hdup]
  · rw [hR]
    rfl
  · rw [hR]
    dsimp only
    rw [hphase, hh1]

theorem duplicate_snapshot_is_silent_success_witness :
    HistoryService.create exDb5 exInput5 =
      Except.error (HistoryError.duplicate "w5") ∧
    historySnapshotPhase exDb5 "w5" 9 = exDb5 ∧
    ((updateStatusHandler exDb5 "w5" "finalCompleted" 9).2).isOk = true ∧
    ((updateStatusHandler exDb5 "w5" "finalCompleted" 9).1).histories
      = exDb5.histories := by
  have h := duplicate_snapshot_is_silent_success exDb5 "w5" exWork5 9
    (by simp [Db.findWork, exDb5, exWork5])
    (by simp [HistoryService.existsForWork, HistoryService.countForWork,
      exDb5, exSnap5])
    (by norm_num [totalPaidOf, paymentsFor, exDb5, exWork5])
  exact ⟨h.1 exInput5 (by simp [exInput5]), h.2.1, h.2.2.1, h.2.2.2⟩

/-- Claim C1: a finalize request on an existing Completed work with
non-negative fees, remaining amount 0, no prior snapshot and a live client
succeeds: the stored status becomes FINAL_COMPLETED, the completion date is
set to the request time when it was unset (and kept otherwise), and exactly
one history row is appended whose originalWorkId names the work, whose
totalPaid equals the ledger total, and whose stored payment-details list is
the amount/date copy of the work's ledger; all other history rows are
untouched. -/
theorem finalize_marks_final_and_snapshots (db : Db) (id : String)
    (w : DbWork) (c : DbClient) (now : Nat)
    (hfind : Db.findWork db id = some w)
    (_hstatus : fromPrismaStatus w.status = WorkStatus.completed)
    (hfees : 0 ≤ w.fees)
    (hrem : max 0 (w.fees - totalPaidOf db id) = 0)
    (hfresh : HistoryService.existsForWork db id = false)
    (hclient : Db.findClient db w.clientId = some c) :
    ((updateStatusHandler db id "finalCompleted" now).2).isOk = true ∧
    (Db.findWork (updateStatusHandler db id "finalCompleted" now).1 id).map
      (fun u => u.status) = some "FINAL_COMPLETED" ∧
    (Db.findWork (updateStatusHandler db id "finalCompleted" now).1 id).map
      (fun u => u.completionDate)
      = some (some (w.completionDate.getD now)) ∧
    ((updateStatusHandler db id "finalCompleted" now).1).histories.dropLast
      = db.histories ∧
    ((((updateStatusHandler db id "finalCompleted"
        now).1).histories.getLast?).map
      (fun s => (s.originalWorkId, s.totalPaid, s.paymentDetails.getD [])))
      = some (some id, totalPaidOf db id, ledgerDetails db id) ∧
    HistoryService.countForWork
      (updateStatusHandler db id "finalCompleted" now).1 id = 1 := by
  obtain ⟨db1, u, hR, hdb1, hfindu, hids, hcid, hpur, hfeeseq, hstat, hcd⟩ :=
    finalize_success_shape db id w now hfind hrem
  have hh1 : db1.histories = db.histories := by rw [hdb1]
  have hp1 : db1.payments = db.payments := by rw [hdb1]
  have hc1 : db1.clients = db.clients := by rw [hdb1]
  have hex1 : HistoryService.existsForWork db1 id = false :=
    (existsForWork_congr db db1 id hh1).trans hfresh
  have htp1 : totalPaidOf db1 id = totalPaidOf db id :=
    totalPaidOf_congr db db1 id hp1
  have hfb1 : PaymentService.findByWorkId db1 id =
      PaymentService.findByWorkId db id := findByWorkId_congr db db1 id hp1
  have hfindwc : WorkService.findByIdWithClient db1 id = some (u, c) := by
    unfold WorkService.findByIdWithClient
    rw [hfindu]
    dsimp only
    rw [findClient_congr db db1 u.clientId hc1, hcid, hclient]
  have hps1 := getPaymentSummary_eq db1 id u hfindu
  have hle : w.fees ≤ totalPaidOf db id := by
    have hx := max_eq_left_iff.mp hrem
    exact sub_nonpos.mp hx
  have htot : snapshotTotalPaid db1 id u = totalPaidOf db id := by
    unfold snapshotTotalPaid
    rw [hps1]
    dsimp only
    rw [htp1]
    by_cases h0 : totalPaidOf db id = 0
    · rw [if_pos h0, hfeeseq, h0]
      exact le_antisymm (h0 ▸ hle) hfees
    · rw [if_neg h0]
  have hdet : snapshotDetails db1 id = ledgerDetails db id := by
    unfold snapshotDetails ledgerDetails
    rw [hps1]
    dsimp only
    rw [hfb1]
  have hiw : (snapshotInput db1 id u c now).originalWorkId = some id := rfl
  have hcr := HistoryService.create_fresh db1 (snapshotInput db1 id u c now)
    id hiw hex1
  have hphase : historySnapshotPhase db1 id now =
      { db1 with histories := db1.histories ++
          [HistoryService.storedRecord (snapshotInput db1 id u c now)] } := by
    unfold historySnapshotPhase
    rw [if_neg (by simp [hex1])]
    rw [hfindwc]
    dsimp only
    rw [hcr]
  have hpd : (HistoryService.storedRecord
      (snapshotInput db1 id u c now)).paymentDetails.getD []
      = snapshotDetails db1 id := by
    cases hdts : snapshotDetails db1 id with
    | nil => simp [HistoryService.storedRecord, snapshotInput, hdts]
    | cons p rest => simp [HistoryService.storedRecord, snapshotInput, hdts]
  have hc0 : HistoryService.countForWork db id = 0 := by
    unfold HistoryService.existsForWork at hfresh
    rcases Nat.eq_zero_or_pos (HistoryService.countForWork db id) with h | h
    · exact h
    · rw [decide_eq_true h] at hfresh
      cases hfresh
  have hfind2 : Db.findWork (historySnapshotPhase db1 id now) id = some u := by
    rw [hphase]
    exact (findWork_works_congr db1 _ id rfl).trans hfindu
  refine ⟨?_, ?_, ?_, ?_, ?_, ?_⟩
  · rw [hR]
    rfl
  · rw [hR]
    dsimp only
    rw [hfind2]
    simp [hstat]
  · rw [hR]
    dsimp only
    rw [hfind2]
    simp [hcd]
  · rw [hR]
    dsimp only
    rw [hphase]
    dsimp only
    rw [List.dropLast_concat, hh1]
  · rw [hR]
    dsimp only
    rw [hphase]
    dsimp only
    rw [List.getLast?_concat]
    simp only [Option.map_some']
    refine congrArg some ?_
    refine Prod.ext rfl (Prod.ext ?_ ?_)
    · show (HistoryService.storedRecord
        (snapshotInput db1 id u c now)).totalPaid = totalPaidOf db id
      show (snapshotInput db1 id u c now).totalPaid = totalPaidOf db id
      show snapshotTotalPaid db1 id u = totalPaidOf db id
      exact htot
    · show (HistoryService.storedRecord
        (snapshotInput db1 id u c now)).paymentDetails.getD []
        = ledgerDetails db id
      rw [hpd, hdet]
  · rw [hR]
    dsimp only
    rw [hphase]
    unfold HistoryService.countForWork
    dsimp only
    rw [List.filter_append, List.length_append, hh1]
    have hone : (List.filter
        (fun h => h.originalWorkId = some id)
        [HistoryService.storedRecord (snapshotInput db1 id u c now)]).length
        = 1 := by
      simp [HistoryService.storedRecord, snapshotInput]
    rw [hone]
    have : (List.filter (fun h => h.originalWorkId = some id)
        db.histories).length = 0 := hc0
    rw [this]

theorem finalize_marks_final_and_snapshots_witness :
    ((updateStatusHandler exDb1 "w1" "finalCompleted" 9).2).isOk = true ∧
    (Db.findWork (updateStatusHandler exDb1 "w1" "finalCompleted" 9).1
      "w1").map (fun u => u.status) = some "FINAL_COMPLETED" ∧
    (Db.findWork (updateStatusHandler exDb1 "w1" "finalCompleted" 9).1
      "w1").map (fun u => u.completionDate) = some (some 9) ∧
    ((((updateStatusHandler exDb1 "w1" "finalCompleted"
        9).1).histories.getLast?).map
      (fun s => (s.originalWorkId, s.totalPaid, s.paymentDetails.getD [])))
      = some (some "w1", 1000,
          [PaymentDetail.mk 600 2, PaymentDetail.mk 400 1]) ∧
    HistoryService.countForWork
      (updateStatusHandler exDb1 "w1" "finalCompleted" 9).1 "w1" = 1 := by
  have h := finalize_marks_final_and_snapshots exDb1 "w1" exWork1 exClient1 9
    (by simp [Db.findWork, exDb1, exWork1])
    (by simp [exWork1, fromPrismaStatus])
    (by norm_num [exWork1])
    (by norm_num [totalPaidOf, paymentsFor, exDb1, exWork1])
    (by simp [HistoryService.existsForWork, HistoryService.countForWork,
      exDb1])
    (by simp [Db.findClient, exDb1, exWork1, exClient1])
  refine ⟨h.1, h.2.1, ?_, ?_, h.2.2.2.2.2⟩
  · rw [h.2.2.1]
    simp [exWork1]
  · rw [h.2.2.2.2.1]
    norm_num [totalPaidOf, paymentsFor, exDb1, ledgerDetails,
      PaymentService.findByWorkId, List.mergeSort, exWork1]

/-- Claim C2 (amended): the update-status handler enforces no forward-only
transition rule.  For a work that exists and a requested status among the
three known values, the only rejected request is finalCompleted while the
computed remaining amount is nonzero (failing with the payment-pending error
and leaving the database unchanged); every other request — including backward
moves, requests repeating the current status, direct Pending→FinalCompleted
when fully paid, and moves out of FinalCompleted — succeeds and stores
exactly the requested status. -/
theorem status_change_unguarded (db : Db) (id : String) (w : DbWork)
    (s : String) (now : Nat) (hfind : Db.findWork db id = some w)
    (hs : s = "pending" ∨ s = "completed" ∨ s = "finalCompleted") :
    (s = "finalCompleted" → max 0 (w.fees - totalPaidOf db id) ≠ 0 →
      updateStatusHandler db id s now =
        (db, .paymentPending (max 0 (w.fees - totalPaidOf db id)) w.fees
          (totalPaidOf db id))) ∧
    ((s = "finalCompleted" → max 0 (w.fees - totalPaidOf db id) = 0) →
      ((updateStatusHandler db id s now).2).isOk = true ∧
      ((updateStatusHandler db id s now).2).workOf =
        Db.findWork (updateStatusHandler db id s now).1 id ∧
      (Db.findWork (updateStatusHandler db id s now).1 id).map
        (fun u => u.status) = some (statusToDbFormat s)) := by
  constructor
  · intro hsf hrem
    subst hsf
    have hps := getPaymentSummary_eq db id w hfind
    simp [updateStatusHandler, hfind, hps, hrem]
  · intro hpaid
    rcases hs with rfl | rfl | rfl
    · rw [updateStatusHandler_nonfinal db id "pending" now w hfind
        (Or.inl rfl) (by decide)]
      obtain ⟨h1, h2, h3, h4⟩ := finishUpdate_ok db id "pending"
        (if "pending" = "completed" ∧ w.completionDate = none then
          { completionDate := some now } else {}) now w hfind
      refine ⟨h1, h2.trans h3.symm, ?_⟩
      rw [h3]
      simpa using h4
    · rw [updateStatusHandler_nonfinal db id "completed" now w hfind
        (Or.inr (Or.inl rfl)) (by decide)]
      obtain ⟨h1, h2, h3, h4⟩ := finishUpdate_ok db id "completed"
        (if "completed" = "completed" ∧ w.completionDate = none then
          { completionDate := some now } else {}) now w hfind
      refine ⟨h1, h2.trans h3.symm, ?_⟩
      rw [h3]
      simpa using h4
    · have hrem := hpaid rfl
      rw [updateStatusHandler_final_paid db id now w hfind hrem]
      obtain ⟨h1, h2, h3, h4⟩ := finishUpdate_ok db id "finalCompleted"
        (if w.completionDate = none then
          { completionDate := some now } else {}) now w hfind
      refine ⟨h1, h2.trans h3.symm, ?_⟩
      rw [h3]
      simpa using h4

/-- Claim C2 counterexample: a Completed→Pending request — a backward
transition the claim says must fail with InvalidTransition and leave the
status unchanged — instead succeeds and stores the Pending status. -/
theorem backward_transition_succeeds :
    (updateStatusHandler exDbC2 "w1" "pending" 7).2 =
      UpdateStatusResult.ok exWorkC2After ∧
    Db.findWork (updateStatusHandler exDbC2 "w1" "pending" 7).1 "w1" =
      some exWorkC2After ∧
    exWorkC2.status = "COMPLETED" ∧ exWorkC2After.status = "PENDING" := by
  refine ⟨?_, ?_, rfl, rfl⟩ <;>
    simp [updateStatusHandler, finishUpdate, WorkService.update, updatedWork,
      Db.findWork, exDbC2, exWorkC2, exWorkC2After, statusToDbFormat,
      toPrismaStatus]

theorem status_change_unguarded_witness :
    ((updateStatusHandler exDbC2 "w1" "pending" 7).2).isOk = true ∧
    (Db.findWork (updateStatusHandler exDbC2 "w1" "pending" 7).1 "w1").map
      (fun u => u.status) = some "PENDING" := by
  have h := (status_change_unguarded exDbC2 "w1" exWorkC2 "pending" 7
    (by simp [Db.findWork, exDbC2, exWorkC2]) (Or.inl rfl)).2
    (fun hc => absurd hc (by decide))
  refine ⟨h.1, ?_⟩
  rw [h.2.2]
  simp [statusToDbFormat, toPrismaStatus]

theorem payments_never_exceed_fees_witness :
    postPayment exDb3 "w3" 700 1 =
      (exDb3, PostPaymentResult.rejected 500 500) := by
  have h := (payments_never_exceed_fees exDb3 "w3" exWork3 []
    (by simp [Db.findWork, exDb3, exWork3])
    (by norm_num [totalPaidOf, paymentsFor, exDb3, exWork3])).2 700 1
    (by norm_num [totalPaidOf, paymentsFor, exDb3, exWork3])
  rw [h]
  norm_num [totalPaidOf, paymentsFor, exDb3, exWork3]

/-- Claim C9 evidence: the POST payments handler runs its validation reads
and its insert as separate storage calls with no transaction, so in the
interleaving where two requests (300 and 400 against fees 500) both run their
validation phase before either insert phase, both validations pass and the
two inserts leave the work's recorded total at 700, exceeding its fees of
500.  This is exactly the schedule the claimed atomicity would rule out. -/
theorem concurrent_payments_jointly_overpay :
    paymentValidationPhase raceDb "w1" 300 = true ∧
    paymentValidationPhase raceDb "w1" 400 = true ∧
    totalPaidOf
      (paymentInsertPhase (paymentInsertPhase raceDb "w1" 300 1) "w1" 400 2)
      "w1" = 700 ∧
    (Db.findWork
        (paymentInsertPhase (paymentInsertPhase raceDb "w1" 300 1) "w1" 400 2)
        "w1").map (fun w => w.fees) = some 500 := by
  refine ⟨?_, ?_, ?_, ?_⟩ <;>
    norm_num [paymentValidationPhase, paymentInsertPhase,
      PaymentService.validatePaymentAmount, PaymentService.getPaymentSummary,
      PaymentService.findByWorkId, paymentsFor, totalPaidCalc,
      PaymentService.create, Db.findWork, raceDb, raceWork, totalPaidOf]

end USM
